import Mathlib

/-!
Shallow embedding of the certificate decoder / chain assembler (source/cert.c)
and of the USB transfer protocol engine (source/usb.c) of nxdumptool, together
with proofs of the behavioural properties stated in the specification.

Byte buffers are modelled as functions `Nat → Nat` giving the byte stored at
each offset (values are reduced mod 256 wherever the code reads them as bytes).
Strings are modelled as `List Char`.  External collaborators (the save-container
reader, the USB device-server primitives) are modelled as oracles passed in
explicitly.
-/

/-! ## Certificate layout constants

The enumeration values and structure sizes below come from the certificate
header declarations (`cert.h`), which only declare data used by `source/cert.c`.
Modelled from the spec: §6 fixes the on-disk layout (`sig_type:4 | signature |
issuer:0x40 | pub_key_type:4 | name:0x40 | cert_id:4 | public_key`) and §3 the
six signature and three public-key algorithms; the per-algorithm block sizes
are the platform's fixed RSA-4096 / RSA-2048 / ECDSA-240 signature and public
key block sizes, and `CERT_MIN_SIZE` / `CERT_MAX_SIZE` are the smallest and
largest valid combination, as §6 requires. -/

def SignatureType_Rsa4096Sha1 : Nat := 0x10000

def SignatureType_Rsa2048Sha1 : Nat := 0x10001

def SignatureType_Ecsda240Sha1 : Nat := 0x10002

def SignatureType_Rsa4096Sha256 : Nat := 0x10003

def SignatureType_Rsa2048Sha256 : Nat := 0x10004

def SignatureType_Ecsda240Sha256 : Nat := 0x10005

def CertPubKeyType_Rsa4096 : Nat := 0

def CertPubKeyType_Rsa2048 : Nat := 1

def CertPubKeyType_Ecsda240 : Nat := 2

/-- Size of `SignatureBlockRsa4096`: 4-byte `sig_type`, 0x200-byte signature,
0x3C padding. -/
def sizeof_SignatureBlockRsa4096 : Nat := 0x240

/-- Size of `SignatureBlockRsa2048`: 4-byte `sig_type`, 0x100-byte signature,
0x3C padding. -/
def sizeof_SignatureBlockRsa2048 : Nat := 0x140

/-- Size of `SignatureBlockEcsda240`: 4-byte `sig_type`, 0x3C-byte signature,
0x40 padding. -/
def sizeof_SignatureBlockEcsda240 : Nat := 0x80

/-- Size of `CertPublicKeyBlockRsa4096`: 0x200-byte modulus, 4-byte exponent,
0x34 padding. -/
def sizeof_CertPublicKeyBlockRsa4096 : Nat := 0x238

/-- Size of `CertPublicKeyBlockRsa2048`: 0x100-byte modulus, 4-byte exponent,
0x34 padding. -/
def sizeof_CertPublicKeyBlockRsa2048 : Nat := 0x138

/-- Size of `CertPublicKeyBlockEcsda240`: 0x3C-byte public key, 0x3C padding. -/
def sizeof_CertPublicKeyBlockEcsda240 : Nat := 0x78

/-- `MEMBER_SIZE(CertSigRsa4096PubKeyRsa4096, issuer)`. -/
def CERT_ISSUER_SIZE : Nat := 0x40

/-- `MEMBER_SIZE(CertSigRsa4096PubKeyRsa4096, pub_key_type)`. -/
def CERT_PUB_KEY_TYPE_SIZE : Nat := 4

/-- `MEMBER_SIZE(CertSigRsa4096PubKeyRsa4096, name)`. -/
def CERT_NAME_SIZE : Nat := 0x40

/-- `MEMBER_SIZE(CertSigRsa4096PubKeyRsa4096, cert_id)`. -/
def CERT_CERT_ID_SIZE : Nat := 4

/-- Smallest valid certificate: ECDSA-240 signature block with ECDSA-240
public key block. -/
def CERT_MIN_SIZE : Nat := 0x180

/-- Largest valid certificate: RSA-4096 signature block with RSA-4096 public
key block. -/
def CERT_MAX_SIZE : Nat := 0x500

/-- Big-endian 32-bit read at `off`, mirroring
`memcpy(&x, data + off, 4); x = __builtin_bswap32(x);` on the little-endian
target. -/
def be32 (data : Nat → Nat) (off : Nat) : Nat :=
  (data off % 256) * 0x1000000 + (data (off + 1) % 256) * 0x10000 +
    (data (off + 2) % 256) * 0x100 + (data (off + 3) % 256)

/-- First `switch` of `certGetCertificateType`: maps a recognised signature
type to its signature-block size, `none` on the `default` branch. -/
def sigBlockSize? (sig_type : Nat) : Option Nat :=
  if sig_type = SignatureType_Rsa4096Sha1 ∨ sig_type = SignatureType_Rsa4096Sha256 then
    some sizeof_SignatureBlockRsa4096
  else if sig_type = SignatureType_Rsa2048Sha1 ∨ sig_type = SignatureType_Rsa2048Sha256 then
    some sizeof_SignatureBlockRsa2048
  else if sig_type = SignatureType_Ecsda240Sha1 ∨ sig_type = SignatureType_Ecsda240Sha256 then
    some sizeof_SignatureBlockEcsda240
  else
    none

/-- Second `switch` of `certGetCertificateType`: maps a recognised public key
type to its public-key-block size, `none` on the `default` branch. -/
def pubKeyBlockSize? (pub_key_type : Nat) : Option Nat :=
  if pub_key_type = CertPubKeyType_Rsa4096 then some sizeof_CertPublicKeyBlockRsa4096
  else if pub_key_type = CertPubKeyType_Rsa2048 then some sizeof_CertPublicKeyBlockRsa2048
  else if pub_key_type = CertPubKeyType_Ecsda240 then some sizeof_CertPublicKeyBlockEcsda240
  else none

/-- Certificate type tag: the `CertType` enumeration, `Invalid` plus the nine
signature-family × public-key-family combinations produced by the `CERT_TYPE`
macro. -/
inductive CertType where
  | Invalid
  | SigRsa4096_PubKeyRsa4096
  | SigRsa4096_PubKeyRsa2048
  | SigRsa4096_PubKeyEcsda240
  | SigRsa2048_PubKeyRsa4096
  | SigRsa2048_PubKeyRsa2048
  | SigRsa2048_PubKeyEcsda240
  | SigEcsda240_PubKeyRsa4096
  | SigEcsda240_PubKeyRsa2048
  | SigEcsda240_PubKeyEcsda240
  deriving DecidableEq, Repr

/-- `CERT_TYPE(Rsa4096)`: nested conditional on `pub_key_type`. -/
def CERT_TYPE_Rsa4096 (pub_key_type : Nat) : CertType :=
  if pub_key_type = CertPubKeyType_Rsa4096 then CertType.SigRsa4096_PubKeyRsa4096
  else if pub_key_type = CertPubKeyType_Rsa2048 then CertType.SigRsa4096_PubKeyRsa2048
  else CertType.SigRsa4096_PubKeyEcsda240

/-- `CERT_TYPE(Rsa2048)`: nested conditional on `pub_key_type`. -/
def CERT_TYPE_Rsa2048 (pub_key_type : Nat) : CertType :=
  if pub_key_type = CertPubKeyType_Rsa4096 then CertType.SigRsa2048_PubKeyRsa4096
  else if pub_key_type = CertPubKeyType_Rsa2048 then CertType.SigRsa2048_PubKeyRsa2048
  else CertType.SigRsa2048_PubKeyEcsda240

/-- `CERT_TYPE(Ecsda240)`: nested conditional on `pub_key_type`. -/
def CERT_TYPE_Ecsda240 (pub_key_type : Nat) : CertType :=
  if pub_key_type = CertPubKeyType_Rsa4096 then CertType.SigEcsda240_PubKeyRsa4096
  else if pub_key_type = CertPubKeyType_Rsa2048 then CertType.SigEcsda240_PubKeyRsa2048
  else CertType.SigEcsda240_PubKeyEcsda240

/-- Embedding of `certGetCertificateType` (source/cert.c, lines 176-256).
The `!data` null check of the C code has no counterpart, since the buffer is
modelled as a total function. -/
def certGetCertificateType (data : Nat → Nat) (data_size : Nat) : CertType :=
  if data_size < CERT_MIN_SIZE ∨ data_size > CERT_MAX_SIZE then CertType.Invalid
  else
    let sig_type := be32 data 0
    match sigBlockSize? sig_type with
    | none => CertType.Invalid
    | some sig_block =>
      let pub_key_off := sig_block + CERT_ISSUER_SIZE
      let pub_key_type := be32 data pub_key_off
      let fields_off := pub_key_off + CERT_PUB_KEY_TYPE_SIZE + CERT_NAME_SIZE + CERT_CERT_ID_SIZE
      match pubKeyBlockSize? pub_key_type with
      | none => CertType.Invalid
      | some pub_key_block =>
        if fields_off + pub_key_block ≠ data_size then CertType.Invalid
        else if sig_type = SignatureType_Rsa4096Sha1 ∨ sig_type = SignatureType_Rsa4096Sha256 then
          CERT_TYPE_Rsa4096 pub_key_type
        else if sig_type = SignatureType_Rsa2048Sha1 ∨ sig_type = SignatureType_Rsa2048Sha256 then
          CERT_TYPE_Rsa2048 pub_key_type
        else if sig_type = SignatureType_Ecsda240Sha1 ∨ sig_type = SignatureType_Ecsda240Sha256 then
          CERT_TYPE_Ecsda240 pub_key_type
        else CertType.Invalid

/-- End offset (exclusive) of the furthest byte read by
`certGetCertificateType` from the caller's buffer: the function always reads
the 4 `sig_type` bytes at offset 0, and, when `sig_type` is recognised, it
also reads the 4 `pub_key_type` bytes at offset `sig_block + 0x40`.  The size
guard performs no read at all. -/
def certTypeReadEnd (data : Nat → Nat) (data_size : Nat) : Nat :=
  if data_size < CERT_MIN_SIZE ∨ data_size > CERT_MAX_SIZE then 0
  else
    match sigBlockSize? (be32 data 0) with
    | none => 4
    | some sig_block => sig_block + CERT_ISSUER_SIZE + 4

/-! ## Certificates and chains

The data model follows §3 of the specification for the `Certificate` record
(the struct itself is declared in the missing header): `data` is the byte
buffer of the certificate, `size` its byte length. -/

structure Certificate where
  type : CertType
  size : Nat
  data : List Nat
  deriving DecidableEq, Repr

/-- A `calloc`-zeroed `Certificate`, as allocated by the chain retrieval
function before each lookup. -/
def zeroCertificate : Certificate := ⟨CertType.Invalid, 0, []⟩

/-- Result of resolving a certificate path inside the ES system savefile:
`size` is the file-entry size reported by
`save_get_fat_storage_from_file_entry_by_path`, and `content` is the byte
sequence actually delivered by `save_allocation_table_storage_read` (its
length is the `br` byte count the C code compares against `dst->size`). -/
structure CertSaveEntry where
  size : Nat
  content : List Nat
  deriving DecidableEq, Repr

/-- Embedding of `certRetrieveCertificateByName` (source/cert.c, lines 21-80).
The savefile lookup is an oracle: `entry?` is `none` when the certificate path
cannot be resolved (or the savefile cannot be opened).  `dst` is the output
structure passed by the caller; the returned pair is the C result flag
together with the final contents of `*dst`. -/
def certRetrieveCertificateByName (entry? : Option CertSaveEntry) (dst : Certificate) :
    Bool × Certificate :=
  match entry? with
  | none => (false, dst)
  | some e =>
    if e.size < CERT_MIN_SIZE ∨ e.size > CERT_MAX_SIZE then (false, dst)
    else if e.content.length ≠ e.size then
      (false, { dst with size := e.size, data := e.content })
    else if certGetCertificateType (fun i => e.content.getD i 0) e.size = CertType.Invalid then
      (false, { dst with
          size := e.size,
          data := e.content,
          type := certGetCertificateType (fun i => e.content.getD i 0) e.size })
    else
      (true, { dst with
          size := e.size,
          data := e.content,
          type := certGetCertificateType (fun i => e.content.getD i 0) e.size })

/-- Tail of the issuer string as built by
`snprintf(issuer_copy, 0x40, issuer + 5)`: the `Root-` parent is skipped and
the copy is truncated to the 63 characters that fit the 0x40-byte temporary.
The tail is treated as plain text (no `%` format directives). -/
def certIssuerCopy (issuer : List Char) : List Char :=
  (issuer.drop 5).take 63

/-- Tokens produced by the `strtok(issuer_copy, "-")` loop: the segments
between dashes, with empty segments skipped, in left-to-right order. -/
def certTokens (issuer : List Char) : List (List Char) :=
  (List.splitOn '-' (certIssuerCopy issuer)).filter (· ≠ [])

/-- Embedding of `certGetCertificateCountInSignatureIssuer` (source/cert.c,
lines 258-277): number of `strtok` tokens of the truncated tail, 0 for an
empty issuer. -/
def certGetCertificateCountInSignatureIssuer (issuer : List Char) : Nat :=
  if issuer = [] then 0 else (certTokens issuer).length

/-- Per-token lookup performed by the chain retrieval loop: a fresh zeroed
`Certificate` is filled by `certRetrieveCertificateByName`; the result is kept
only when that call reports success. -/
def certChainLookup (save : List Char → Option CertSaveEntry) (name : List Char) :
    Option Certificate :=
  match certRetrieveCertificateByName (save name) zeroCertificate with
  | (true, c) => some c
  | (false, _) => none

/-- The `while (pch != NULL)` retrieval loop of
`certRetrieveCertificateChainBySignatureIssuer`: certificates are collected in
token order; the first failed lookup aborts the loop, and the partial chain is
then freed (modelled by returning `none`). -/
def certRetrieveLoop (save : List Char → Option CertSaveEntry) :
    List (List Char) → Option (List Certificate)
  | [] => some []
  | t :: ts =>
    match certChainLookup save t with
    | none => none
    | some c =>
      match certRetrieveLoop save ts with
      | none => none
      | some cs => some (c :: cs)

/-- Embedding of `certRetrieveCertificateChainBySignatureIssuer`
(source/cert.c, lines 91-138).  The C function returns a plain `bool` and
fills `*dst`; the embedding returns `some chain` on success and `none` on any
failure path (invalid parameters, zero token count, failed lookup — in the
last case the partially built chain is freed before returning). -/
def certRetrieveCertificateChainBySignatureIssuer
    (save : List Char → Option CertSaveEntry) (issuer : List Char) :
    Option (List Certificate) :=
  if issuer = [] ∨ issuer.take 5 ≠ "Root-".toList then none
  else if certGetCertificateCountInSignatureIssuer issuer = 0 then none
  else certRetrieveLoop save (certTokens issuer)

/-- Embedding of `certCalculateRawCertificateChainSize` (source/cert.c, lines
279-298): the summation loop. -/
def certChainSizeLoop : List Certificate → Nat
  | [] => 0
  | c :: rest => c.size + certChainSizeLoop rest

/-- Embedding of `certCalculateRawCertificateChainSize` including its
guard (`!chain->count` returns 0, which coincides with the empty sum). -/
def certCalculateRawCertificateChainSize (chain : List Certificate) : Nat :=
  if chain = [] then 0 else certChainSizeLoop chain

/-- Embedding of `certCopyCertificateChainDataToMemoryBuffer` (source/cert.c,
lines 288-298): each `memcpy` appends the first `size` bytes of a
certificate's buffer at the running output position. -/
def certChainCopyLoop : List Certificate → List Nat
  | [] => []
  | c :: rest => c.data.take c.size ++ certChainCopyLoop rest

/-- Embedding of `certCopyCertificateChainDataToMemoryBuffer` including its
guard (an empty chain writes nothing). -/
def certCopyCertificateChainDataToMemoryBuffer (chain : List Certificate) : List Nat :=
  if chain = [] then [] else certChainCopyLoop chain

/-- Embedding of `certGenerateRawCertificateChainBySignatureIssuer`
(source/cert.c, lines 140-174): retrieve the chain, compute the raw size,
copy the certificates into a fresh buffer and report the size through
`out_size`.  Allocation failure is not modelled. -/
def certGenerateRawCertificateChainBySignatureIssuer
    (save : List Char → Option CertSaveEntry) (issuer : List Char) :
    Option (List Nat × Nat) :=
  if issuer = [] then none
  else
    match certRetrieveCertificateChainBySignatureIssuer save issuer with
    | none => none
    | some chain =>
      some (certCopyCertificateChainDataToMemoryBuffer chain,
        certCalculateRawCertificateChainSize chain)

/-! ## USB transfer protocol engine

The session-relevant global state of source/usb.c is collected in `UsbState`;
endpoint hardware behaviour and host replies are supplied per call through a
`UsbHostIo` oracle.  `USB_TRANSFER_BUFFER_SIZE` and `FS_MAX_PATH` are declared
in headers outside the extracted sources.  Modelled from the spec: §6 gives
`FS_MAX_PATH` = 0x301 via the `filename[FS_MAX_PATH]=0x301` field and names
`USB_TRANSFER_BUFFER_SIZE` as the chunk-size cap; the buffer size value is the
platform build's 8 MiB transfer buffer (no proved statement depends on its
exact value). -/

def USB_TRANSFER_BUFFER_SIZE : Nat := 0x800000

def FS_MAX_PATH : Nat := 0x301

/-- ASCII `NXDT`, the command/status magic word (big-endian on the wire). -/
def USB_CMD_HEADER_MAGIC : Nat := 0x4E584454

def UsbStatusType_Success : Nat := 0

def UsbStatusType_InvalidCommandSize : Nat := 1

def UsbStatusType_WriteCommandFailed : Nat := 2

def UsbStatusType_ReadStatusFailed : Nat := 3

def UsbStatusType_InvalidMagicWord : Nat := 4

/-- `sizeof(UsbCommandHeader)`: magic(4) + cmd(4) + cmd_block_size(4) +
reserved(4). -/
def sizeof_UsbCommandHeader : Nat := 16

/-- `sizeof(UsbCommandStartSession)`: three version bytes + abi_version +
reserved(12). -/
def sizeof_UsbCommandStartSession : Nat := 16

/-- `sizeof(UsbCommandSendFileProperties)`: file_size(8) +
filename_length(4) + reserved(4) + filename(0x301) + reserved(0xF). -/
def sizeof_UsbCommandSendFileProperties : Nat := 0x320

/-- `sizeof(UsbStatus)`: magic(4) + status(4) + reserved(8). -/
def sizeof_UsbStatus : Nat := 16

/-- Session-relevant global variables of source/usb.c:
`g_usbTransferBuffer != NULL`, `g_usbDeviceInterfaceInitialized`,
`g_usbDeviceInterface.initialized`, `g_usbHostAvailable`,
`g_usbSessionStarted` and `g_usbTransferRemainingSize`. -/
structure UsbState where
  transferBufferOk : Bool
  ifaceGlobalInit : Bool
  ifaceInit : Bool
  hostAvailable : Bool
  sessionStarted : Bool
  remainingSize : Nat
  deriving DecidableEq, Repr

/-- Per-call endpoint/host oracle: `writeOk` is the result of the `usbWrite`
of the outgoing block, `readOk` the result of the `usbRead` of the 16-byte
status frame, `statusMagic` the big-endian value of the reply's magic bytes
(the C code compares the native load against `__builtin_bswap32(magic)`,
which is the same test), and `statusCode` the reply's status field. -/
structure UsbHostIo where
  writeOk : Bool
  readOk : Bool
  statusMagic : Nat
  statusCode : Nat
  deriving DecidableEq, Repr

/-- Embedding of `usbSendCommand` (source/usb.c, lines 470-504). -/
def usbSendCommand (io : UsbHostIo) (cmd_size : Nat) : Nat :=
  if cmd_size < sizeof_UsbCommandHeader ∨ cmd_size > USB_TRANSFER_BUFFER_SIZE then
    UsbStatusType_InvalidCommandSize
  else if ¬ io.writeOk then UsbStatusType_WriteCommandFailed
  else if ¬ io.readOk then UsbStatusType_ReadStatusFailed
  else if io.statusMagic ≠ USB_CMD_HEADER_MAGIC then UsbStatusType_InvalidMagicWord
  else io.statusCode

/-- Embedding of `usbSendFileProperties` (source/usb.c, lines 228-271).
`filename?` is `none` for a NULL filename pointer.  The returned pair is the
C result flag and the updated global state. -/
def usbSendFileProperties (s : UsbState) (io : UsbHostIo) (file_size : Nat)
    (filename? : Option (List Char)) : Bool × UsbState :=
  if ¬ s.transferBufferOk ∨ ¬ s.ifaceGlobalInit ∨ ¬ s.ifaceInit ∨ ¬ s.hostAvailable ∨
      ¬ s.sessionStarted ∨ s.remainingSize > 0 ∨ filename? = none ∨
      (filename?.getD []).length = 0 ∨ (filename?.getD []).length ≥ FS_MAX_PATH then
    (false, s)
  else if usbSendCommand io (sizeof_UsbCommandHeader + sizeof_UsbCommandSendFileProperties) =
      UsbStatusType_Success then
    (true, { s with remainingSize := file_size })
  else (false, s)

/-- Result of one `usbSendFileData` call: the C result flag, the updated
global state, and whether the 16-byte trailing status frame was read during
the call. -/
structure UsbSendFileDataResult where
  ret : Bool
  state : UsbState
  statusFrameRead : Bool
  deriving DecidableEq, Repr

/-- Body of `usbSendFileData` (source/usb.c, lines 273-329) up to the `end`
label: argument checks, chunk write, decrement, and — only when the remaining
size hits zero — the read and validation of the trailing status frame.
`dataPtrNull` is true for a NULL `data` pointer; the aligned / non-aligned
buffer selection has no bearing on the session state and is not modelled. -/
def usbSendFileDataCore (s : UsbState) (io : UsbHostIo) (dataPtrNull : Bool)
    (data_size : Nat) : UsbSendFileDataResult :=
  if ¬ s.transferBufferOk ∨ ¬ s.ifaceGlobalInit ∨ ¬ s.ifaceInit ∨ ¬ s.hostAvailable ∨
      ¬ s.sessionStarted ∨ s.remainingSize = 0 ∨ dataPtrNull ∨ data_size = 0 ∨
      data_size > USB_TRANSFER_BUFFER_SIZE ∨ data_size > s.remainingSize then
    ⟨false, s, false⟩
  else if ¬ io.writeOk then ⟨false, s, false⟩
  else if s.remainingSize - data_size = 0 then
    if ¬ io.readOk then ⟨false, { s with remainingSize := s.remainingSize - data_size }, true⟩
    else if io.statusMagic ≠ USB_CMD_HEADER_MAGIC then
      ⟨false, { s with remainingSize := s.remainingSize - data_size }, true⟩
    else if io.statusCode = UsbStatusType_Success then
      ⟨true, { s with remainingSize := s.remainingSize - data_size }, true⟩
    else ⟨false, { s with remainingSize := s.remainingSize - data_size }, true⟩
  else ⟨true, { s with remainingSize := s.remainingSize - data_size }, false⟩

/-- Embedding of `usbSendFileData` including the `end` label:
`if (!ret) g_usbTransferRemainingSize = 0;` runs on every exit path. -/
def usbSendFileData (s : UsbState) (io : UsbHostIo) (dataPtrNull : Bool)
    (data_size : Nat) : UsbSendFileDataResult :=
  match usbSendFileDataCore s io dataPtrNull data_size with
  | ⟨true, s2, fr⟩ => ⟨true, s2, fr⟩
  | ⟨false, s2, fr⟩ => ⟨false, { s2 with remainingSize := 0 }, fr⟩

/-- Embedding of `usbStartSession` (source/usb.c, lines 417-445): sends the
`StartSession` command and reports whether the host acknowledged it. -/
def usbStartSession (s : UsbState) (io : UsbHostIo) : Bool :=
  if ¬ s.transferBufferOk ∨ ¬ s.ifaceGlobalInit ∨ ¬ s.ifaceInit then false
  else usbSendCommand io (sizeof_UsbCommandHeader + sizeof_UsbCommandStartSession) =
    UsbStatusType_Success

/-- One state-change / timeout wake-up of the detection thread
(source/usb.c, lines 382-400): re-evaluate host availability (`hostNow` is the
`usbIsHostAvailable()` answer), reset the session flag and the remaining
transfer size, then attempt to start a session when a host is connected. -/
def usbDetectionStep (s : UsbState) (hostNow : Bool) (io : UsbHostIo) : UsbState :=
  if hostNow then
    { s with
        hostAvailable := hostNow,
        remainingSize := 0,
        sessionStarted := usbStartSession
          { s with hostAvailable := hostNow, sessionStarted := false, remainingSize := 0 } io }
  else { s with hostAvailable := hostNow, sessionStarted := false, remainingSize := 0 }

/-- Detection-thread exit path (source/usb.c, lines 406-409): all session
flags and the remaining transfer size are cleared. -/
def usbDetectionExit (s : UsbState) : UsbState :=
  { s with hostAvailable := false, sessionStarted := false, remainingSize := 0 }

/-- Effect of `usbInitialize` / `usbExit` on the session-relevant state: the
transfer buffer and the two interface flags are set or cleared; neither
function touches `g_usbHostAvailable`, `g_usbSessionStarted` or
`g_usbTransferRemainingSize` directly. -/
def usbCommsStep (s : UsbState) (bufOk giOk iOk : Bool) : UsbState :=
  { s with transferBufferOk := bufOk, ifaceGlobalInit := giOk, ifaceInit := iOk }

/-- State-modifying operations on the USB session state. -/
inductive UsbStep : UsbState → UsbState → Prop where
  | fileProps {s : UsbState} (io : UsbHostIo) (file_size : Nat)
      (filename? : Option (List Char)) :
      UsbStep s (usbSendFileProperties s io file_size filename?).2
  | fileData {s : UsbState} (io : UsbHostIo) (dataPtrNull : Bool) (data_size : Nat) :
      UsbStep s (usbSendFileData s io dataPtrNull data_size).state
  | detect {s : UsbState} (hostNow : Bool) (io : UsbHostIo) :
      UsbStep s (usbDetectionStep s hostNow io)
  | detectExit {s : UsbState} : UsbStep s (usbDetectionExit s)
  | comms {s : UsbState} (bufOk giOk iOk : Bool) : UsbStep s (usbCommsStep s bufOk giOk iOk)

/-- Reachability through any interleaving of the state-modifying operations. -/
inductive UsbReachable : UsbState → UsbState → Prop where
  | refl (s : UsbState) : UsbReachable s s
  | tail {s t u : UsbState} : UsbReachable s t → UsbStep t u → UsbReachable s u

/-- Boot state: every global of source/usb.c is zero-initialised. -/
def usbBootState : UsbState := ⟨false, false, false, false, false, 0⟩

/-- Session invariant of §3: a pending transfer implies an active session on
an available host. -/
def usbSessionInvariant (s : UsbState) : Prop :=
  s.remainingSize > 0 → s.sessionStarted = true ∧ s.hostAvailable = true

/-! ## Concrete instances used by the witness theorems -/

/-- A well-formed minimal certificate image: `sig_type` = `Ecsda240Sha1`
(big-endian 0x10002 at offset 0), `pub_key_type` = `Ecsda240` (big-endian 2
at offset 0xC0), total length 0x180. -/
def demoCertBufEcsda : Nat → Nat := fun i =>
  if i = 1 then 1 else if i = 3 then 2 else if i = 0xC3 then 2 else 0

/-- A buffer whose first four bytes claim an RSA-4096 signature
(`sig_type` = big-endian 0x10000) regardless of the buffer's actual length. -/
def demoCertBufRsa4096 : Nat → Nat := fun i => if i = 1 then 1 else 0

/-- The 0x180 bytes of `demoCertBufEcsda` as a stored file. -/
def demoEcsdaBytes : List Nat := (List.range 0x180).map demoCertBufEcsda

/-- Savefile oracle holding the minimal ECDSA certificate under the names
`a` and `b`. -/
def demoSave : List Char → Option CertSaveEntry := fun name =>
  if name = ['a'] ∨ name = ['b'] then some ⟨0x180, demoEcsdaBytes⟩ else none

/-- The certificate produced by a successful lookup in `demoSave`. -/
def demoEcsdaCert : Certificate :=
  ⟨CertType.SigEcsda240_PubKeyEcsda240, 0x180, demoEcsdaBytes⟩

/-- A save entry whose storage read comes up short: the file entry reports
0x180 bytes but only one byte is delivered. -/
def demoShortEntry : CertSaveEntry := ⟨0x180, [7]⟩

/-- USB state with an established session and a pending 0x2000-byte file. -/
def demoUsbReady : UsbState := ⟨true, true, true, true, true, 0x2000⟩

/-- USB state with an established session and no pending transfer. -/
def demoUsbIdle : UsbState := ⟨true, true, true, true, true, 0⟩

/-- Host oracle: endpoints work and the host acknowledges with `Success`. -/
def demoIoOk : UsbHostIo := ⟨true, true, USB_CMD_HEADER_MAGIC, UsbStatusType_Success⟩

/-- Host oracle: endpoints work but the reply carries a wrong magic word. -/
def demoIoBadMagic : UsbHostIo := ⟨true, true, 0x12345678, UsbStatusType_Success⟩

/-- Host oracle: endpoints work but the host reports an I/O error (8). -/
def demoIoHostErr : UsbHostIo := ⟨true, true, USB_CMD_HEADER_MAGIC, 8⟩

/-! ## Helper lemmas -/

theorem CERT_TYPE_Rsa4096_ne_invalid (p : Nat) : CERT_TYPE_Rsa4096 p ≠ CertType.Invalid := by
  unfold CERT_TYPE_Rsa4096; split
  · simp
  · split <;> simp

theorem CERT_TYPE_Rsa2048_ne_invalid (p : Nat) : CERT_TYPE_Rsa2048 p ≠ CertType.Invalid := by
  unfold CERT_TYPE_Rsa2048; split
  · simp
  · split <;> simp

theorem CERT_TYPE_Ecsda240_ne_invalid (p : Nat) : CERT_TYPE_Ecsda240 p ≠ CertType.Invalid := by
  unfold CERT_TYPE_Ecsda240; split
  · simp
  · split <;> simp

/-- Characterisation of a non-`Invalid` result of `certGetCertificateType`:
both type words are recognised and the computed end offset matches the
buffer length. -/
theorem certGetCertificateType_ne_invalid_iff (data : Nat → Nat) (S : Nat)
    (h1 : CERT_MIN_SIZE ≤ S) (h2 : S ≤ CERT_MAX_SIZE) :
    certGetCertificateType data S ≠ CertType.Invalid ↔
      ∃ sig_block pub_key_block,
        sigBlockSize? (be32 data 0) = some sig_block ∧
        pubKeyBlockSize? (be32 data (sig_block + CERT_ISSUER_SIZE)) = some pub_key_block ∧
        sig_block + CERT_ISSUER_SIZE + CERT_PUB_KEY_TYPE_SIZE + CERT_NAME_SIZE +
          CERT_CERT_ID_SIZE + pub_key_block = S := by
  unfold certGetCertificateType
  rw [if_neg (by omega)]
  simp only []
  cases hsig : sigBlockSize? (be32 data 0) with
  | none => simp
  | some sb =>
    cases hpub : pubKeyBlockSize? (be32 data (sb + CERT_ISSUER_SIZE)) with
    | none => simp [hpub]
    | some pb =>
      simp only [hpub]
      by_cases hoff : sb + CERT_ISSUER_SIZE + CERT_PUB_KEY_TYPE_SIZE + CERT_NAME_SIZE +
          CERT_CERT_ID_SIZE + pb = S
      · rw [if_neg (by omega)]
        constructor
        · intro _; exact ⟨sb, pb, rfl, hpub, hoff⟩
        · intro _
          split
          · exact CERT_TYPE_Rsa4096_ne_invalid _
          · split
            · exact CERT_TYPE_Rsa2048_ne_invalid _
            · split
              · exact CERT_TYPE_Ecsda240_ne_invalid _
              · next hne1 hne2 hne3 =>
                exfalso
                unfold sigBlockSize? at hsig
                rw [if_neg hne1, if_neg hne2, if_neg hne3] at hsig
                exact Option.noConfusion hsig
      · rw [if_pos (by omega)]
        simp only [ne_eq, not_true_eq_false, false_iff]
        rintro ⟨sb2, pb2, hs2, hp2, ho2⟩
        injection hs2 with hsb
        subst hsb
        rw [hpub] at hp2
        injection hp2 with hpb
        subst hpb
        exact hoff ho2

/-- A recognised signature type maps to one of the three signature-block
sizes. -/
theorem sigBlockSize?_mem (sig sb : Nat) (h : sigBlockSize? sig = some sb) :
    sb = sizeof_SignatureBlockRsa4096 ∨ sb = sizeof_SignatureBlockRsa2048 ∨
      sb = sizeof_SignatureBlockEcsda240 := by
  unfold sigBlockSize? at h
  split at h
  · exact Or.inl (by injection h with h2; exact h2.symm)
  · split at h
    · exact Or.inr (Or.inl (by injection h with h2; exact h2.symm))
    · split at h
      · exact Or.inr (Or.inr (by injection h with h2; exact h2.symm))
      · exact Option.noConfusion h

/-- C1: for a certificate buffer whose length `S` lies in
[`CERT_MIN_SIZE`, `CERT_MAX_SIZE`], `certGetCertificateType` returns a type
different from `Invalid` iff the big-endian `sig_type` at offset 0 is
recognised, the big-endian `pub_key_type` read after the signature block and
issuer field is recognised, and the computed end offset equals `S` exactly. -/
theorem claimC1_type_parsing (data : Nat → Nat) (S : Nat)
    (h1 : CERT_MIN_SIZE ≤ S) (h2 : S ≤ CERT_MAX_SIZE) :
    certGetCertificateType data S ≠ CertType.Invalid ↔
      ∃ sig_block pub_key_block,
        sigBlockSize? (be32 data 0) = some sig_block ∧
        pubKeyBlockSize? (be32 data (sig_block + CERT_ISSUER_SIZE)) = some pub_key_block ∧
        sig_block + CERT_ISSUER_SIZE + CERT_PUB_KEY_TYPE_SIZE + CERT_NAME_SIZE +
          CERT_CERT_ID_SIZE + pub_key_block = S :=
  certGetCertificateType_ne_invalid_iff data S h1 h2

/-- Witness for C1 at the minimal well-formed ECDSA-240 buffer. -/
theorem claimC1_type_parsing_witness :
    CERT_MIN_SIZE ≤ 0x180 ∧ (0x180 : Nat) ≤ CERT_MAX_SIZE ∧
      (certGetCertificateType demoCertBufEcsda 0x180 ≠ CertType.Invalid ↔
        ∃ sig_block pub_key_block,
          sigBlockSize? (be32 demoCertBufEcsda 0) = some sig_block ∧
          pubKeyBlockSize? (be32 demoCertBufEcsda (sig_block + CERT_ISSUER_SIZE)) =
            some pub_key_block ∧
          sig_block + CERT_ISSUER_SIZE + CERT_PUB_KEY_TYPE_SIZE + CERT_NAME_SIZE +
            CERT_CERT_ID_SIZE + pub_key_block = 0x180) :=
  ⟨by decide, by decide, claimC1_type_parsing demoCertBufEcsda 0x180 (by decide) (by decide)⟩

/-- C6 counterexample: a 0x180-byte buffer (the smallest size accepted by the
size guard) whose `sig_type` word claims an RSA-4096 signature makes
`certGetCertificateType` read the 4 `pub_key_type` bytes at offsets
0x280..0x283, past the end of the buffer. -/
theorem claimC6_reads_counterexample :
    CERT_MIN_SIZE ≤ 0x180 ∧ (0x180 : Nat) ≤ CERT_MAX_SIZE ∧
      certTypeReadEnd demoCertBufRsa4096 0x180 = 0x284 ∧
      ¬ certTypeReadEnd demoCertBufRsa4096 0x180 ≤ 0x180 := by
  decide

/-- C6 (amended): every byte read by `certGetCertificateType` stays within the
first `CERT_MAX_SIZE` bytes of the buffer, and stays within the first `S`
bytes whenever the function returns a type different from `Invalid`. -/
theorem claimC6_reads_amended (data : Nat → Nat) (S : Nat)
    (h1 : CERT_MIN_SIZE ≤ S) (h2 : S ≤ CERT_MAX_SIZE) :
    certTypeReadEnd data S ≤ CERT_MAX_SIZE ∧
      (certGetCertificateType data S ≠ CertType.Invalid → certTypeReadEnd data S ≤ S) := by
  unfold certTypeReadEnd
  rw [if_neg (by omega)]
  cases hsig : sigBlockSize? (be32 data 0) with
  | none =>
    constructor
    · show (4 : Nat) ≤ CERT_MAX_SIZE
      decide
    · intro _
      show (4 : Nat) ≤ S
      have : CERT_MIN_SIZE = 0x180 := rfl
      omega
  | some sb =>
    have hsb := sigBlockSize?_mem _ _ hsig
    constructor
    · show sb + CERT_ISSUER_SIZE + 4 ≤ CERT_MAX_SIZE
      simp only [sizeof_SignatureBlockRsa4096, sizeof_SignatureBlockRsa2048,
        sizeof_SignatureBlockEcsda240, CERT_ISSUER_SIZE, CERT_MAX_SIZE] at *
      omega
    · intro hval
      show sb + CERT_ISSUER_SIZE + 4 ≤ S
      rw [certGetCertificateType_ne_invalid_iff data S h1 h2] at hval
      obtain ⟨sb2, pb2, hs2, hp2, ho2⟩ := hval
      rw [hsig] at hs2
      injection hs2 with hsb2
      subst hsb2
      simp only [CERT_ISSUER_SIZE, CERT_PUB_KEY_TYPE_SIZE, CERT_NAME_SIZE,
        CERT_CERT_ID_SIZE] at *
      omega

/-- Witness for the amended C6 at the minimal well-formed ECDSA-240 buffer. -/
theorem claimC6_reads_amended_witness :
    CERT_MIN_SIZE ≤ 0x180 ∧ (0x180 : Nat) ≤ CERT_MAX_SIZE ∧
      (certTypeReadEnd demoCertBufEcsda 0x180 ≤ CERT_MAX_SIZE ∧
        (certGetCertificateType demoCertBufEcsda 0x180 ≠ CertType.Invalid →
          certTypeReadEnd demoCertBufEcsda 0x180 ≤ 0x180)) :=
  ⟨by decide, by decide, claimC6_reads_amended demoCertBufEcsda 0x180 (by decide) (by decide)⟩

/-- Inversion of a successful `certRetrieveCertificateByName` call: the save
entry exists, its size passed the range check, the read delivered exactly
`size` bytes, and the output certificate carries the entry's size, bytes and
a valid parsed type. -/
theorem certRetrieveCertificateByName_true (e? : Option CertSaveEntry) (dst r : Certificate)
    (h : certRetrieveCertificateByName e? dst = (true, r)) :
    ∃ e, e? = some e ∧ e.content.length = e.size ∧ r.size = e.size ∧ r.data = e.content ∧
      r.type = certGetCertificateType (fun i => e.content.getD i 0) e.size ∧
      r.type ≠ CertType.Invalid := by
  cases e? with
  | none => simp [certRetrieveCertificateByName] at h
  | some e =>
    simp only [certRetrieveCertificateByName] at h
    by_cases h1 : e.size < CERT_MIN_SIZE ∨ e.size > CERT_MAX_SIZE
    · rw [if_pos h1] at h; simp at h
    · rw [if_neg h1] at h
      by_cases h2 : e.content.length ≠ e.size
      · rw [if_pos h2] at h; simp at h
      · rw [if_neg h2] at h
        by_cases h3 : certGetCertificateType (fun i => e.content.getD i 0) e.size =
            CertType.Invalid
        · rw [if_pos h3] at h; simp at h
        · rw [if_neg h3] at h
          rw [Prod.mk.injEq] at h
          obtain ⟨-, hrec⟩ := h
          subst hrec
          push_neg at h2
          exact ⟨e, rfl, h2, rfl, rfl, rfl, h3⟩

/-- A successful per-token lookup yields a certificate whose buffer length
equals its recorded size, with a valid type. -/
theorem certChainLookup_data_length (save : List Char → Option CertSaveEntry)
    (t : List Char) (c : Certificate) (h : certChainLookup save t = some c) :
    c.data.length = c.size ∧ c.type ≠ CertType.Invalid := by
  unfold certChainLookup at h
  cases hr : certRetrieveCertificateByName (save t) zeroCertificate with
  | mk b c2 =>
    rw [hr] at h
    cases b with
    | false => exact Option.noConfusion h
    | true =>
      injection h with h
      subst h
      obtain ⟨e, -, hel, hsz, hdata, -, hty⟩ :=
        certRetrieveCertificateByName_true (save t) zeroCertificate c2 hr
      refine ⟨?_, hty⟩
      rw [hsz, hdata, hel]

/-- The retrieval loop returns one certificate per token, in token order:
each chain entry is the certificate the per-token lookup produced. -/
theorem certRetrieveLoop_spec (save : List Char → Option CertSaveEntry)
    (ts : List (List Char)) (cs : List Certificate)
    (h : certRetrieveLoop save ts = some cs) :
    cs.length = ts.length ∧
      ∀ i, i < cs.length →
        certChainLookup save (ts.getD i []) = some (cs.getD i zeroCertificate) := by
  induction ts generalizing cs with
  | nil =>
    unfold certRetrieveLoop at h
    injection h with h
    subst h
    exact ⟨rfl, fun i hi => absurd hi (by simp)⟩
  | cons t ts ih =>
    unfold certRetrieveLoop at h
    cases hl : certChainLookup save t with
    | none => rw [hl] at h; exact Option.noConfusion h
    | some c =>
      rw [hl] at h
      cases hr : certRetrieveLoop save ts with
      | none => rw [hr] at h; exact Option.noConfusion h
      | some cs2 =>
        rw [hr] at h
        injection h with h
        subst h
        obtain ⟨hlen, hget⟩ := ih cs2 hr
        refine ⟨by simp [hlen], fun i hi => ?_⟩
        cases i with
        | zero => simpa using hl
        | succ j =>
          simp only [List.getD_cons_succ]
          exact hget j (by simp at hi; omega)

/-- Every certificate of a chain produced by the retrieval loop has a buffer
of exactly its recorded size and a valid type. -/
theorem certRetrieveLoop_mem (save : List Char → Option CertSaveEntry)
    (ts : List (List Char)) (cs : List Certificate)
    (h : certRetrieveLoop save ts = some cs) :
    ∀ c ∈ cs, c.data.length = c.size ∧ c.type ≠ CertType.Invalid := by
  induction ts generalizing cs with
  | nil =>
    unfold certRetrieveLoop at h
    injection h with h
    subst h
    intro c hc
    exact absurd hc (by simp)
  | cons t ts ih =>
    unfold certRetrieveLoop at h
    cases hl : certChainLookup save t with
    | none => rw [hl] at h; exact Option.noConfusion h
    | some c =>
      rw [hl] at h
      cases hr : certRetrieveLoop save ts with
      | none => rw [hr] at h; exact Option.noConfusion h
      | some cs2 =>
        rw [hr] at h
        injection h with h
        subst h
        intro c2 hc2
        rcases List.mem_cons.mp hc2 with hc2 | hc2
        · subst hc2; exact certChainLookup_data_length save t c2 hl
        · exact ih cs2 hr c2 hc2

/-- Inversion of a successful chain retrieval: the issuer passed the `Root-`
check, the token count is positive, and the loop delivered the chain. -/
theorem certRetrieveChain_inv (save : List Char → Option CertSaveEntry)
    (issuer : List Char) (cs : List Certificate)
    (h : certRetrieveCertificateChainBySignatureIssuer save issuer = some cs) :
    issuer ≠ [] ∧ issuer.take 5 = "Root-".toList ∧
      certGetCertificateCountInSignatureIssuer issuer ≠ 0 ∧
      certRetrieveLoop save (certTokens issuer) = some cs := by
  unfold certRetrieveCertificateChainBySignatureIssuer at h
  split at h
  · exact Option.noConfusion h
  · split at h
    · exact Option.noConfusion h
    · next hg hc =>
      push_neg at hg
      exact ⟨hg.1, hg.2, hc, h⟩

/-- Concatenating a chain whose certificates carry buffers of exactly their
recorded sizes yields the concatenation of the buffers, with total length the
sum of the sizes. -/
theorem certChainCopyLoop_join (cs : List Certificate)
    (h : ∀ c ∈ cs, c.data.length = c.size) :
    certChainCopyLoop cs = (cs.map Certificate.data).flatten ∧
      (certChainCopyLoop cs).length = certChainSizeLoop cs := by
  induction cs with
  | nil => simp [certChainCopyLoop, certChainSizeLoop]
  | cons c cs ih =>
    obtain ⟨ih1, ih2⟩ := ih (fun c2 hc2 => h c2 (List.mem_cons_of_mem _ hc2))
    have hc := h c (List.mem_cons_self _ _)
    unfold certChainCopyLoop certChainSizeLoop
    constructor
    · simp only [List.map_cons, List.flatten_cons, ih1, ← hc, List.take_length]
    · simp only [List.length_append, ih2, List.length_take, ← hc]
      omega

/-- The summation loop computes the sum of the certificate sizes. -/
theorem certChainSizeLoop_eq_sum (cs : List Certificate) :
    certChainSizeLoop cs = (cs.map Certificate.size).sum := by
  induction cs with
  | nil => rfl
  | cons c cs ih => simp [certChainSizeLoop, ih]

/-- C3: for every issuer string accepted by
`certRetrieveCertificateChainBySignatureIssuer` (starting with `Root-` and
yielding at least one token), a successfully returned chain has one
certificate per token, and its i-th certificate is the one retrieved for the
i-th token in the order the tokens appeared in the issuer string. -/
theorem claimC3_chain_order (save : List Char → Option CertSaveEntry)
    (issuer : List Char) (certs : List Certificate)
    (h : certRetrieveCertificateChainBySignatureIssuer save issuer = some certs) :
    issuer.take 5 = "Root-".toList ∧
      certs.length = certGetCertificateCountInSignatureIssuer issuer ∧
      certs.length = (certTokens issuer).length ∧
      1 ≤ certs.length ∧
      ∀ i, i < certs.length →
        certChainLookup save ((certTokens issuer).getD i []) =
          some (certs.getD i zeroCertificate) := by
  obtain ⟨hne, hroot, hcnt, hloop⟩ := certRetrieveChain_inv save issuer certs h
  obtain ⟨hlen, hget⟩ := certRetrieveLoop_spec save (certTokens issuer) certs hloop
  have hcount : certGetCertificateCountInSignatureIssuer issuer = (certTokens issuer).length := by
    unfold certGetCertificateCountInSignatureIssuer
    rw [if_neg hne]
  refine ⟨hroot, by omega, hlen, ?_, hget⟩
  rw [hcount] at hcnt
  omega

set_option maxRecDepth 10000 in
/-- Witness for C3: issuer `Root-a-b` over the demo savefile yields the
two-certificate chain in token order. -/
theorem claimC3_chain_order_witness :
    certRetrieveCertificateChainBySignatureIssuer demoSave "Root-a-b".toList =
        some [demoEcsdaCert, demoEcsdaCert] ∧
      ("Root-a-b".toList.take 5 = "Root-".toList ∧
        [demoEcsdaCert, demoEcsdaCert].length =
          certGetCertificateCountInSignatureIssuer "Root-a-b".toList ∧
        [demoEcsdaCert, demoEcsdaCert].length = (certTokens "Root-a-b".toList).length ∧
        1 ≤ [demoEcsdaCert, demoEcsdaCert].length ∧
        ∀ i, i < [demoEcsdaCert, demoEcsdaCert].length →
          certChainLookup demoSave ((certTokens "Root-a-b".toList).getD i []) =
            some ([demoEcsdaCert, demoEcsdaCert].getD i zeroCertificate)) :=
  ⟨by decide,
    claimC3_chain_order demoSave "Root-a-b".toList [demoEcsdaCert, demoEcsdaCert] (by decide)⟩

/-- C4: a raw chain buffer produced for a non-empty certificate chain is the
byte concatenation of the certificates' buffers in chain order, and the
reported size is the sum of the certificate sizes, equal to the buffer
length. -/
theorem claimC4_raw_chain (save : List Char → Option CertSaveEntry)
    (issuer : List Char) (buf : List Nat) (sz : Nat)
    (h : certGenerateRawCertificateChainBySignatureIssuer save issuer = some (buf, sz)) :
    ∃ chain, certRetrieveCertificateChainBySignatureIssuer save issuer = some chain ∧
      chain ≠ [] ∧
      buf = (chain.map Certificate.data).flatten ∧
      sz = (chain.map Certificate.size).sum ∧
      buf.length = sz := by
  unfold certGenerateRawCertificateChainBySignatureIssuer at h
  split at h
  · exact Option.noConfusion h
  · cases hr : certRetrieveCertificateChainBySignatureIssuer save issuer with
    | none => rw [hr] at h; exact Option.noConfusion h
    | some chain =>
      rw [hr] at h
      injection h with h
      rw [Prod.mk.injEq] at h
      obtain ⟨hbuf, hsz⟩ := h
      obtain ⟨hne, -, hcnt, hloop⟩ := certRetrieveChain_inv save issuer chain hr
      have hinv := certRetrieveLoop_mem save (certTokens issuer) chain hloop
      obtain ⟨hlen, -⟩ := certRetrieveLoop_spec save (certTokens issuer) chain hloop
      have hcount : certGetCertificateCountInSignatureIssuer issuer =
          (certTokens issuer).length := by
        unfold certGetCertificateCountInSignatureIssuer
        rw [if_neg hne]
      have hchain_ne : chain ≠ [] := by
        intro hnil
        subst hnil
        rw [hcount] at hcnt
        simp at hlen
        exact hcnt hlen.symm
      obtain ⟨hjoin, hjlen⟩ := certChainCopyLoop_join chain (fun c hc => (hinv c hc).1)
      refine ⟨chain, rfl, hchain_ne, ?_, ?_, ?_⟩
      · rw [← hbuf]
        unfold certCopyCertificateChainDataToMemoryBuffer
        rw [if_neg hchain_ne]
        exact hjoin
      · rw [← hsz]
        unfold certCalculateRawCertificateChainSize
        rw [if_neg hchain_ne]
        exact certChainSizeLoop_eq_sum chain
      · rw [← hbuf, ← hsz]
        unfold certCopyCertificateChainDataToMemoryBuffer certCalculateRawCertificateChainSize
        rw [if_neg hchain_ne, if_neg hchain_ne]
        exact hjlen

set_option maxRecDepth 10000 in
/-- Witness for C4: the raw chain generated for `Root-a` is the single demo
certificate's 0x180 bytes. -/
theorem claimC4_raw_chain_witness :
    certGenerateRawCertificateChainBySignatureIssuer demoSave "Root-a".toList =
        some (demoEcsdaBytes, 0x180) ∧
      (∃ chain, certRetrieveCertificateChainBySignatureIssuer demoSave "Root-a".toList =
          some chain ∧
        chain ≠ [] ∧
        demoEcsdaBytes = (chain.map Certificate.data).flatten ∧
        0x180 = (chain.map Certificate.size).sum ∧
        demoEcsdaBytes.length = 0x180) :=
  ⟨by decide,
    claimC4_raw_chain demoSave "Root-a".toList demoEcsdaBytes 0x180 (by decide)⟩

/-- A failed lookup for any token makes the whole retrieval loop fail. -/
theorem certRetrieveLoop_none (save : List Char → Option CertSaveEntry)
    (ts : List (List Char)) (t : List Char) (ht : t ∈ ts)
    (hl : certChainLookup save t = none) :
    certRetrieveLoop save ts = none := by
  induction ts with
  | nil => exact absurd ht (by simp)
  | cons t2 ts ih =>
    unfold certRetrieveLoop
    rcases List.mem_cons.mp ht with rfl | hmem
    · rw [hl]
    · cases hl2 : certChainLookup save t2 with
      | none => rfl
      | some c => rw [ih hmem]

/-- C8 counterexample: the three failure classes — issuer without the `Root-`
start, empty tail after stripping it, and a failed certificate lookup — all
return the same value (`none`, the C `false`) to the caller, so the error
kinds are not distinct. -/
theorem claimC8_failures_counterexample :
    certRetrieveCertificateChainBySignatureIssuer (fun _ => none) ['X'] = none ∧
      certRetrieveCertificateChainBySignatureIssuer (fun _ => none) "Root-".toList = none ∧
      certRetrieveCertificateChainBySignatureIssuer (fun _ => none) "Root-a".toList = none ∧
      certRetrieveCertificateChainBySignatureIssuer (fun _ => none) ['X'] =
        certRetrieveCertificateChainBySignatureIssuer (fun _ => none) "Root-".toList ∧
      certRetrieveCertificateChainBySignatureIssuer (fun _ => none) "Root-".toList =
        certRetrieveCertificateChainBySignatureIssuer (fun _ => none) "Root-a".toList := by
  decide

/-- C8 (amended): each of the three failure classes makes
`certRetrieveCertificateChainBySignatureIssuer` fail, with one and the same
caller-observable outcome (the C function returns `false`); the classes are
told apart only in the log. -/
theorem claimC8_failures_amended (save : List Char → Option CertSaveEntry)
    (issuer : List Char) :
    (issuer.take 5 ≠ "Root-".toList →
      certRetrieveCertificateChainBySignatureIssuer save issuer = none) ∧
      (certTokens issuer = [] →
        certRetrieveCertificateChainBySignatureIssuer save issuer = none) ∧
      (∀ t, t ∈ certTokens issuer → certChainLookup save t = none →
        certRetrieveCertificateChainBySignatureIssuer save issuer = none) := by
  refine ⟨?_, ?_, ?_⟩
  · intro hroot
    unfold certRetrieveCertificateChainBySignatureIssuer
    rw [if_pos (Or.inr hroot)]
  · intro htok
    unfold certRetrieveCertificateChainBySignatureIssuer
    split
    · rfl
    · next hg =>
      rw [if_pos ?_]
      unfold certGetCertificateCountInSignatureIssuer
      push_neg at hg
      rw [if_neg hg.1, htok]
      rfl
  · intro t ht hl
    unfold certRetrieveCertificateChainBySignatureIssuer
    split
    · rfl
    · split
      · rfl
      · exact certRetrieveLoop_none save (certTokens issuer) t ht hl

/-- Witness for the amended C8 at two concrete failing inputs. -/
theorem claimC8_failures_amended_witness :
    certRetrieveCertificateChainBySignatureIssuer (fun _ => none) ['Y'] = none ∧
      certRetrieveCertificateChainBySignatureIssuer (fun _ => none) "Root-x".toList = none :=
  ⟨(claimC8_failures_amended (fun _ => none) ['Y']).1 (by decide),
    (claimC8_failures_amended (fun _ => none) "Root-x".toList).2.2 ['x'] (by decide) (by decide)⟩

/-- C10: once the size-range check passes, `certRetrieveCertificateByName`
writes the entry's size and bytes into `*dst` before validating the read
length and the certificate type, so those failures return `false` with `dst`
partially overwritten. -/
theorem claimC10_partial_write (e : CertSaveEntry) (dst : Certificate)
    (hmin : CERT_MIN_SIZE ≤ e.size) (hmax : e.size ≤ CERT_MAX_SIZE)
    (hfail : e.content.length ≠ e.size ∨
      certGetCertificateType (fun i => e.content.getD i 0) e.size = CertType.Invalid) :
    (certRetrieveCertificateByName (some e) dst).1 = false ∧
      ((certRetrieveCertificateByName (some e) dst).2).size = e.size ∧
      ((certRetrieveCertificateByName (some e) dst).2).data = e.content := by
  simp only [certRetrieveCertificateByName]
  rw [if_neg (by omega)]
  rcases hfail with hlen | hty
  · rw [if_pos hlen]
    exact ⟨rfl, rfl, rfl⟩
  · by_cases hlen : e.content.length ≠ e.size
    · rw [if_pos hlen]
      exact ⟨rfl, rfl, rfl⟩
    · rw [if_neg hlen, if_pos hty]
      exact ⟨rfl, rfl, rfl⟩

/-- Witness for C10: a short storage read leaves the output certificate with
the new size and the partially read byte, different from the zeroed input. -/
theorem claimC10_partial_write_witness :
    CERT_MIN_SIZE ≤ demoShortEntry.size ∧ demoShortEntry.size ≤ CERT_MAX_SIZE ∧
      demoShortEntry.content.length ≠ demoShortEntry.size ∧
      ((certRetrieveCertificateByName (some demoShortEntry) zeroCertificate).1 = false ∧
        ((certRetrieveCertificateByName (some demoShortEntry) zeroCertificate).2).size =
          demoShortEntry.size ∧
        ((certRetrieveCertificateByName (some demoShortEntry) zeroCertificate).2).data =
          demoShortEntry.content) ∧
      (certRetrieveCertificateByName (some demoShortEntry) zeroCertificate).2 ≠
        zeroCertificate :=
  ⟨by decide, by decide, by decide,
    claimC10_partial_write demoShortEntry zeroCertificate (by decide) (by decide)
      (Or.inl (by decide)),
    by decide⟩

/-- Inversion of a successful `usbSendFileDataCore` step: the argument checks
passed (so the session was active on an available host, the chunk is
non-empty and fits the pending transfer), the remaining size dropped by
exactly the chunk size, and the status frame was read exactly when the
remaining size hit zero. -/
theorem usbSendFileDataCore_true (s : UsbState) (io : UsbHostIo) (np : Bool) (n : Nat)
    (s2 : UsbState) (fr : Bool)
    (h : usbSendFileDataCore s io np n = ⟨true, s2, fr⟩) :
    s.sessionStarted = true ∧ s.hostAvailable = true ∧ 0 < n ∧ n ≤ s.remainingSize ∧
      n ≤ USB_TRANSFER_BUFFER_SIZE ∧
      s2 = { s with remainingSize := s.remainingSize - n } ∧
      (fr = true ↔ s.remainingSize - n = 0) := by
  unfold usbSendFileDataCore at h
  split at h
  · exact absurd h (by simp)
  case isFalse hcond =>
    push_neg at hcond
    obtain ⟨hbuf, hgi, hii, hhost, hsess, hrem0, hnp, hn0, hbufsz, hle⟩ := hcond
    split at h
    · exact absurd h (by simp)
    · split at h
      · next hz =>
        split at h
        · exact absurd h (by simp)
        · split at h
          · exact absurd h (by simp)
          · split at h
            · simp only [UsbSendFileDataResult.mk.injEq, true_and] at h
              obtain ⟨hs2, hfr⟩ := h
              exact ⟨hsess, hhost, by omega, by omega, by omega, hs2.symm,
                by rw [← hfr]; simp [hz]⟩
            · exact absurd h (by simp)
      · next hz =>
        simp only [UsbSendFileDataResult.mk.injEq, true_and] at h
        obtain ⟨hs2, hfr⟩ := h
        exact ⟨hsess, hhost, by omega, by omega, by omega, hs2.symm,
          by rw [← hfr]; simp [hz]⟩

/-- `usbSendFileData` on a successful core run returns the core result
unchanged. -/
theorem usbSendFileData_eq_true (s : UsbState) (io : UsbHostIo) (np : Bool) (n : Nat)
    (s2 : UsbState) (fr : Bool) (h : usbSendFileDataCore s io np n = ⟨true, s2, fr⟩) :
    usbSendFileData s io np n = ⟨true, s2, fr⟩ := by
  unfold usbSendFileData
  rw [h]

/-- `usbSendFileData` on a failed core run resets the remaining transfer size
(the `end` label of the C code). -/
theorem usbSendFileData_eq_false (s : UsbState) (io : UsbHostIo) (np : Bool) (n : Nat)
    (s2 : UsbState) (fr : Bool) (h : usbSendFileDataCore s io np n = ⟨false, s2, fr⟩) :
    usbSendFileData s io np n = ⟨false, { s2 with remainingSize := 0 }, fr⟩ := by
  unfold usbSendFileData
  rw [h]

/-- C2: a successful `usbSendFileData` call with chunk size `n` in
`(0, min(remaining_transfer, USB_TRANSFER_BUFFER_SIZE)]` during an active
session decrements `remaining_transfer` by exactly `n` (hence never increases
it), and reads the 16-byte status frame exactly when the remaining size
reaches zero. -/
theorem claimC2_send_file_data (s : UsbState) (io : UsbHostIo) (dataPtrNull : Bool)
    (n : Nat) (hn : 0 < n) (hmin : n ≤ min s.remainingSize USB_TRANSFER_BUFFER_SIZE)
    (hsess : s.sessionStarted = true)
    (hret : (usbSendFileData s io dataPtrNull n).ret = true) :
    (usbSendFileData s io dataPtrNull n).state.remainingSize = s.remainingSize - n ∧
      (usbSendFileData s io dataPtrNull n).state.remainingSize ≤ s.remainingSize ∧
      ((usbSendFileData s io dataPtrNull n).statusFrameRead = true ↔
        s.remainingSize = n) := by
  cases hc : usbSendFileDataCore s io dataPtrNull n with
  | mk b s2 fr =>
    cases b with
    | false =>
      rw [usbSendFileData_eq_false s io dataPtrNull n s2 fr hc] at hret
      exact Bool.noConfusion hret
    | true =>
      rw [usbSendFileData_eq_true s io dataPtrNull n s2 fr hc]
      obtain ⟨-, -, -, hle, -, hs2, hfr⟩ := usbSendFileDataCore_true s io dataPtrNull n s2 fr hc
      subst hs2
      refine ⟨rfl, ?_, ?_⟩
      · show s.remainingSize - n ≤ s.remainingSize
        omega
      · show fr = true ↔ s.remainingSize = n
        rw [hfr]
        omega

/-- Witness for C2: a 0x1000-byte chunk of a pending 0x2000-byte transfer. -/
theorem claimC2_send_file_data_witness :
    0 < 0x1000 ∧
      (0x1000 : Nat) ≤ min demoUsbReady.remainingSize USB_TRANSFER_BUFFER_SIZE ∧
      demoUsbReady.sessionStarted = true ∧
      (usbSendFileData demoUsbReady demoIoOk false 0x1000).ret = true ∧
      ((usbSendFileData demoUsbReady demoIoOk false 0x1000).state.remainingSize =
          demoUsbReady.remainingSize - 0x1000 ∧
        (usbSendFileData demoUsbReady demoIoOk false 0x1000).state.remainingSize ≤
          demoUsbReady.remainingSize ∧
        ((usbSendFileData demoUsbReady demoIoOk false 0x1000).statusFrameRead = true ↔
          demoUsbReady.remainingSize = 0x1000)) :=
  ⟨by decide, by decide, by decide, by decide,
    claimC2_send_file_data demoUsbReady demoIoOk false 0x1000 (by decide) (by decide)
      (by decide) (by decide)⟩

/-- C9: every `usbSendFileData` call that returns `false` — the argument-check
failures included — leaves `remaining_transfer` reset to 0, aborting any
in-progress file transfer. -/
theorem claimC9_failure_resets (s : UsbState) (io : UsbHostIo) (dataPtrNull : Bool)
    (n : Nat) (h : (usbSendFileData s io dataPtrNull n).ret = false) :
    (usbSendFileData s io dataPtrNull n).state.remainingSize = 0 := by
  cases hc : usbSendFileDataCore s io dataPtrNull n with
  | mk b s2 fr =>
    cases b with
    | false =>
      rw [usbSendFileData_eq_false s io dataPtrNull n s2 fr hc]
    | true =>
      rw [usbSendFileData_eq_true s io dataPtrNull n s2 fr hc] at h
      exact Bool.noConfusion h

/-- Witness for C9: a NULL data pointer fails only the argument checks, yet
the pending 0x2000-byte transfer is aborted. -/
theorem claimC9_failure_resets_witness :
    demoUsbReady.remainingSize = 0x2000 ∧
      (usbSendFileData demoUsbReady demoIoOk true 0x1000).ret = false ∧
      (usbSendFileData demoUsbReady demoIoOk true 0x1000).state.remainingSize = 0 :=
  ⟨by decide, by decide, claimC9_failure_resets demoUsbReady demoIoOk true 0x1000 (by decide)⟩

/-- `usbSendFileProperties` preserves the session invariant. -/
theorem usbSendFileProperties_inv (s : UsbState) (io : UsbHostIo) (file_size : Nat)
    (filename? : Option (List Char)) (hs : usbSessionInvariant s) :
    usbSessionInvariant (usbSendFileProperties s io file_size filename?).2 := by
  unfold usbSendFileProperties
  split
  · exact hs
  case isFalse hcond =>
    push_neg at hcond
    obtain ⟨hbuf, hgi, hii, hhost, hsess, -⟩ := hcond
    split
    · intro _
      exact ⟨hsess, hhost⟩
    · exact hs

/-- `usbSendFileData` preserves the session invariant. -/
theorem usbSendFileData_inv (s : UsbState) (io : UsbHostIo) (dataPtrNull : Bool)
    (data_size : Nat) (hs : usbSessionInvariant s) :
    usbSessionInvariant (usbSendFileData s io dataPtrNull data_size).state := by
  cases hc : usbSendFileDataCore s io dataPtrNull data_size with
  | mk b s2 fr =>
    cases b with
    | false =>
      rw [usbSendFileData_eq_false s io dataPtrNull data_size s2 fr hc]
      intro hrem
      exact absurd hrem (by simp)
    | true =>
      rw [usbSendFileData_eq_true s io dataPtrNull data_size s2 fr hc]
      obtain ⟨hsess, hhost, -, -, -, hs2, -⟩ :=
        usbSendFileDataCore_true s io dataPtrNull data_size s2 fr hc
      subst hs2
      intro _
      exact ⟨hsess, hhost⟩

/-- A detection-loop wake-up always leaves a state with no pending transfer,
so the session invariant holds afterwards. -/
theorem usbDetectionStep_inv (s : UsbState) (hostNow : Bool) (io : UsbHostIo) :
    usbSessionInvariant (usbDetectionStep s hostNow io) := by
  unfold usbDetectionStep
  split <;> intro hrem <;> exact absurd hrem (by simp)

/-- The detection-thread exit path clears the pending transfer, so the
session invariant holds afterwards. -/
theorem usbDetectionExit_inv (s : UsbState) :
    usbSessionInvariant (usbDetectionExit s) := by
  intro hrem
  exact absurd hrem (by simp [usbDetectionExit])

/-- Setting up or tearing down the transfer buffer and interface flags does
not touch the session triple, so it preserves the invariant. -/
theorem usbCommsStep_inv (s : UsbState) (bufOk giOk iOk : Bool)
    (hs : usbSessionInvariant s) :
    usbSessionInvariant (usbCommsStep s bufOk giOk iOk) := by
  intro hrem
  exact hs hrem

/-- Every state-modifying operation preserves the session invariant. -/
theorem usbStep_inv {s t : UsbState} (hs : usbSessionInvariant s) (h : UsbStep s t) :
    usbSessionInvariant t := by
  cases h with
  | fileProps io file_size filename? => exact usbSendFileProperties_inv s io file_size filename? hs
  | fileData io dataPtrNull data_size => exact usbSendFileData_inv s io dataPtrNull data_size hs
  | detect hostNow io => exact usbDetectionStep_inv s hostNow io
  | detectExit => exact usbDetectionExit_inv s
  | comms bufOk giOk iOk => exact usbCommsStep_inv s bufOk giOk iOk hs

/-- C5: in every state reachable from the boot state through the
state-modifying operations (`usbSendFileProperties`, `usbSendFileData`, the
detection-loop wake-up and exit paths, and comms setup / teardown), a positive
`remaining_transfer` implies an active session on an available host. -/
theorem claimC5_session_invariant (s0 s : UsbState) (hh : s0.hostAvailable = false)
    (hsess : s0.sessionStarted = false) (hr : s0.remainingSize = 0)
    (hreach : UsbReachable s0 s) : usbSessionInvariant s := by
  induction hreach with
  | refl =>
    intro hrem
    rw [hr] at hrem
    exact absurd hrem (by omega)
  | tail _ hstep ih => exact usbStep_inv ih hstep

/-- Witness for C5: boot, bring up comms, detect a host and start a session,
then announce a 0x2000-byte file; the reached state satisfies the
invariant. -/
theorem claimC5_session_invariant_witness :
    usbBootState.hostAvailable = false ∧ usbBootState.sessionStarted = false ∧
      usbBootState.remainingSize = 0 ∧
      usbSessionInvariant
        (usbSendFileProperties (usbDetectionStep (usbCommsStep usbBootState true true true)
          true demoIoOk) demoIoOk 0x2000 (some ['d'])).2 :=
  ⟨by decide, by decide, by decide,
    claimC5_session_invariant usbBootState _ (by decide) (by decide) (by decide)
      (UsbReachable.tail
        (UsbReachable.tail
          (UsbReachable.tail (UsbReachable.refl usbBootState) (UsbStep.comms true true true))
          (UsbStep.detect true demoIoOk))
        (UsbStep.fileProps demoIoOk 0x2000 (some ['d'])))⟩

/-- C7: a host reply whose magic word is not big-endian `NXDT` makes
`usbSendCommand` return the `InvalidMagicWord` status, and whenever the
`SendFileProperties` command completes with any status other than `Success`,
`usbSendFileProperties` returns `false` with the state unchanged — in
particular `remaining_transfer` is not set to the file size. -/
theorem claimC7_invalid_magic (io : UsbHostIo) (cmd_size : Nat)
    (h1 : sizeof_UsbCommandHeader ≤ cmd_size) (h2 : cmd_size ≤ USB_TRANSFER_BUFFER_SIZE)
    (hw : io.writeOk = true) (hr : io.readOk = true)
    (hm : io.statusMagic ≠ USB_CMD_HEADER_MAGIC) :
    usbSendCommand io cmd_size = UsbStatusType_InvalidMagicWord ∧
      ∀ (s : UsbState) (io2 : UsbHostIo) (file_size : Nat) (filename? : Option (List Char)),
        usbSendCommand io2 (sizeof_UsbCommandHeader + sizeof_UsbCommandSendFileProperties) ≠
            UsbStatusType_Success →
          usbSendFileProperties s io2 file_size filename? = (false, s) := by
  constructor
  · unfold usbSendCommand
    rw [if_neg (by omega), if_neg (by simp [hw]), if_neg (by simp [hr]), if_pos hm]
  · intro s io2 file_size filename? hst
    unfold usbSendFileProperties
    split
    · rfl
    · rfl

/-- Witness for C7: a wrong-magic reply to a minimal command, and a host
error status refused by `usbSendFileProperties`. -/
theorem claimC7_invalid_magic_witness :
    sizeof_UsbCommandHeader ≤ 16 ∧ (16 : Nat) ≤ USB_TRANSFER_BUFFER_SIZE ∧
      demoIoBadMagic.writeOk = true ∧ demoIoBadMagic.readOk = true ∧
      demoIoBadMagic.statusMagic ≠ USB_CMD_HEADER_MAGIC ∧
      usbSendCommand demoIoBadMagic 16 = UsbStatusType_InvalidMagicWord ∧
      usbSendFileProperties demoUsbIdle demoIoHostErr 0x2000 (some ['d']) =
        (false, demoUsbIdle) :=
  ⟨by decide, by decide, by decide, by decide, by decide,
    (claimC7_invalid_magic demoIoBadMagic 16 (by decide) (by decide) (by decide) (by decide)
      (by decide)).1,
    (claimC7_invalid_magic demoIoBadMagic 16 (by decide) (by decide) (by decide) (by decide)
      (by decide)).2 demoUsbIdle demoIoHostErr 0x2000 (some ['d']) (by decide)⟩

